import Mathlib

/-!
Verification of the codexctl update/restore orchestration engine
(src/codexctl/__init__.py) against its natural-language specification.

Python strings are embedded as lists of characters (List Char); the helper
functions pySplit, pyJoin, pyInsert and startsWith mirror the Python
primitives str.split (single-character separator), str.join, list.insert
and str.startswith exactly.
-/

set_option autoImplicit false

namespace Codexctl

/-- Python str.split with a one-character separator: "".split(sep) is [""],
and every occurrence of the separator opens a new (possibly empty) field. -/
def pySplit (sep : Char) : List Char → List (List Char)
  | [] => [[]]
  | c :: cs =>
    if c = sep then
      [] :: pySplit sep cs
    else
      match pySplit sep cs with
      | [] => [[c]]
      | h :: t => (c :: h) :: t

/-- Python sep.join over a list of strings. -/
def pyJoin (sep : Char) : List (List Char) → List Char
  | [] => []
  | [x] => x
  | x :: y :: xs => x ++ sep :: pyJoin sep (y :: xs)

/-- Python list.insert(i, x): inserts before index i, appends when i is at
or beyond the end of the list. -/
def pyInsert {α : Type} (i : Nat) (x : α) : List α → List α
  | [] => [x]
  | a :: as =>
    match i with
    | 0 => x :: a :: as
    | n + 1 => a :: pyInsert n x as

/-- Python str.startswith. -/
def startsWith : List Char → List Char → Bool
  | [], _ => true
  | _ :: _, [] => false
  | p :: ps, c :: cs => if p = c then startsWith ps cs else false

/-- Prefix tested by set_server_config when deactivating lines. -/
def serverPfx : List Char := "SERVER=".data

/-- Header line prefix that fixes the insertion point. -/
def generalHdr : List Char := "[General]".data

/-- Prefix of a deactivated (commented-out) server line. -/
def hashServerPfx : List Char := "#SERVER=".data

/-- Line rewrite applied at every index of the loop body of
set_server_config: a line beginning with SERVER= gets a # prepended,
every other line is untouched. -/
def commentServerLine (l : List Char) : List Char :=
  if startsWith serverPfx l then '#' :: l else l

/-- Loop body of set_server_config over the split lines: threads the index
i and the insertion position (Python variable line, initially 0, set to
i + 1 at every line starting with [General]) and rewrites SERVER= lines. -/
def set_server_loop (i insPos : Nat) : List (List Char) → Nat × List (List Char)
  | [] => (insPos, [])
  | a :: rest =>
    let insPos' := if startsWith generalHdr a then i + 1 else insPos
    let r := set_server_loop (i + 1) insPos' rest
    (r.1, commentServerLine a :: r.2)

/-- Embedding of set_server_config(contents, server_host_name): split on
newlines, comment out every SERVER= line while recording the position
right after the last [General] line (0 when none), insert the new
SERVER=<server_host_name> line there, and join back with newlines. -/
def set_server_config (contents server_host_name : List Char) : List Char :=
  let data_attributes := pySplit '\n' contents
  let r := set_server_loop 0 0 data_attributes
  pyJoin '\n' (pyInsert r.1 (serverPfx ++ server_host_name) r.2)

/-- Embedding of the f-string http://{server_ip}:{port} built by
edit_config before it calls set_server_config. -/
def serverHostName (server_ip : List Char) (port : Nat) : List Char :=
  "http://".data ++ server_ip ++ ":".data ++ (toString port).data

/-! ### Partition-swap script (RESTORE_CODE) -/

/-- Boot-environment variable names touched by RESTORE_CODE. -/
def upgradeKey : List Char := "upgrade_available".data

/-- Boot-environment name of the boot counter. -/
def bootcountKey : List Char := "bootcount".data

/-- Boot-environment name of the active partition. -/
def activeKey : List Char := "active_partition".data

/-- Boot-environment name of the fallback partition. -/
def fallbackKey : List Char := "fallback_partition".data

/-- Effect of one fw_setenv call on the boot environment, modelled as a
map from variable names to values. -/
def fw_setenv (env : List Char → List Char) (k v : List Char) :
    List Char → List Char :=
  fun k' => if k' = k then v else env k'

/-- Write trace of RESTORE_CODE, in script order: the script first sets
upgrade_available and bootcount, then reads OLDPART from active_partition,
computes NEWPART as 3 when OLDPART is exactly the string 2 and as 2
otherwise, and finally writes fallback_partition followed by
active_partition. -/
def restore_writes (env : List Char → List Char) :
    List (List Char × List Char) :=
  let env2 := fw_setenv (fw_setenv env upgradeKey "1".data) bootcountKey "0".data
  let oldpart := env2 activeKey
  let newpart := if oldpart = "2".data then "3".data else "2".data
  [(upgradeKey, "1".data), (bootcountKey, "0".data),
   (fallbackKey, oldpart), (activeKey, newpart)]

/-- Boot environment after RESTORE_CODE runs: its writes applied in
order. -/
def restore_script (env : List Char → List Char) : List Char → List Char :=
  (restore_writes env).foldl (fun e kv => fw_setenv e kv.1 kv.2) env

/-- Index of the first write to a given variable in a write trace. -/
def keyIdx (k : List Char) : List (List Char × List Char) → Nat
  | [] => 0
  | kv :: rest => if kv.1 = k then 0 else keyIdx k rest + 1

theorem fw_setenv_same (env : List Char → List Char) (k v : List Char) :
    fw_setenv env k v k = v := by
  simp [fw_setenv]

theorem fw_setenv_other (env : List Char → List Char) (k v k' : List Char)
    (h : k' ≠ k) : fw_setenv env k v k' = env k' := by
  simp [fw_setenv, h]

/-! ### Version resolution (version_lookup) -/

/-- External version catalog (the UpdateManager collaborator): the latest
known-good lookup, the pinned toltec version, and the identifier catalogs
of the two device generations. -/
structure UpdateManager where
  latest_versions : Int → List Char
  latest_toltec_version : List Char
  id_lookups_rm2 : List (List Char)
  id_lookups_rm1 : List (List Char)

/-- Kinds of Python exceptions raised by version_lookup. -/
inductive PyError
  | systemError (msg : List Char)
  | systemExit (msg : List Char)
deriving DecidableEq

/-- Message of the invalid-device failure. -/
def invalidDeviceMsg : List Char := "Error: Invalid device given!".data

/-- Message of the unknown-version failure; it lists example tokens. -/
def invalidVersionMsg : List Char :=
  "Error: Invalid version! Examples: latest, toltec, 3.2.3.1595, 2.15.0.1067".data

/-- Embedding of version_lookup(version, device): the tokens latest and
toltec return catalog values before any device check; a literal token is
looked up in the catalog of device 2 or 1, any other device raises
SystemError, and a literal token missing from the catalog raises
SystemExit with example tokens in the message. -/
def version_lookup (um : UpdateManager) (version : List Char) (device : Int) :
    Except PyError (List Char) :=
  if version = "latest".data then
    Except.ok (um.latest_versions device)
  else if version = "toltec".data then
    Except.ok um.latest_toltec_version
  else if device = 2 then
    if version ∈ um.id_lookups_rm2 then Except.ok version
    else Except.error (PyError.systemExit invalidVersionMsg)
  else if device = 1 then
    if version ∈ um.id_lookups_rm1 then Except.ok version
    else Except.error (PyError.systemExit invalidVersionMsg)
  else
    Except.error (PyError.systemError invalidDeviceMsg)

/-- Coarse classifier of a PyError: true exactly on SystemExit. -/
def isSystemExit : PyError → Bool
  | PyError.systemError _ => false
  | PyError.systemExit _ => true

/-- Sample concrete catalog used for closed counterexamples. -/
def umSample : UpdateManager where
  latest_versions := fun _ => "3.2.3.1595".data
  latest_toltec_version := "2.15.0.1067".data
  id_lookups_rm2 := ["3.2.3.1595".data]
  id_lookups_rm1 := ["2.15.0.1067".data]

/-! ### Restore workflow (do_restore) -/

/-- Python str.lower restricted to what the confirmation check needs. -/
def pyLower (s : List Char) : List Char := s.map Char.toLower

/-- Terminal state of the restore workflow. -/
inductive RestoreResult
  | aborted
  | calledProcessError (exitCode : Int)
  | success
deriving DecidableEq

/-- Embedding of do_restore: the operator must answer with a string whose
lowering contains the letter y, else the workflow aborts; on the device
(update.conf present) the swap script runs under subprocess.run with
check=True, so a non-zero exit raises CalledProcessError; on the remote
path the script runs over SSH, recv_exit_status() is called but its value
is discarded, and the workflow ends successfully regardless of the exit
status. Interface detection, SSH connection and the shutdown prompt do
not influence the terminal state and are elided. -/
def do_restore (onDevice : Bool) (confirmAnswer : List Char)
    (scriptExit : Int) : RestoreResult :=
  if ¬ ('y' ∈ pyLower confirmAnswer) then
    RestoreResult.aborted
  else if onDevice then
    if scriptExit ≠ 0 then RestoreResult.calledProcessError scriptExit
    else RestoreResult.success
  else
    RestoreResult.success

/-! ### Install workflow tail (do_install, update trigger) -/

/-- Terminal state of the install workflow after the server thread has
started. -/
inductive InstallOutcome
  | success
  | fatal (msg : List Char)
deriving DecidableEq

/-- Observable result of the tail of do_install: the terminal state, the
stderr text printed to the operator (if any), and the daemon flag the
server thread was started with (threading.Thread(..., daemon=True)); a
daemon thread is terminated together with the process, and a fatal
outcome is a SystemExit that terminates the process with a non-zero
status. -/
structure InstallFinish where
  outcome : InstallOutcome
  printedStderr : Option (List Char)
  serverDaemon : Bool
deriving DecidableEq

/-- Message raised when the device-side update trigger exits non-zero. -/
def updateErrorMsg : List Char := "There was an error updating :(".data

/-- Message raised when the reachability probe fails. -/
def unreachableMsg : List Char :=
  "Device cannot reach server! Is the firewall blocking connections?".data

/-- Embedding of the remote branch of do_install after the server thread
starts: first the nc reachability probe, then update_engine_client
-update; a non-zero exit status of the trigger prints the captured stderr
and raises SystemExit. -/
def install_remote_finish (ncExit updateExit : Int) (updateStderr : List Char) :
    InstallFinish :=
  if ncExit ≠ 0 then
    ⟨InstallOutcome.fatal unreachableMsg, none, true⟩
  else if updateExit ≠ 0 then
    ⟨InstallOutcome.fatal updateErrorMsg, some updateStderr, true⟩
  else
    ⟨InstallOutcome.success, none, true⟩

/-- Embedding of the local branch of do_install after the server thread
starts: update_engine_client -update runs under Popen; a non-zero exit
prints the captured stderr and raises SystemExit. -/
def install_local_finish (updateExit : Int) (updateStderr : List Char) :
    InstallFinish :=
  if updateExit ≠ 0 then
    ⟨InstallOutcome.fatal updateErrorMsg, some updateStderr, true⟩
  else
    ⟨InstallOutcome.success, none, true⟩

/-! ### Network interface scan (get_host_ip) and install topology -/

/-- Address family of one psutil snic entry. -/
inductive AddrFamily
  | inet
  | inet6
  | packet
deriving DecidableEq

/-- One psutil address record: family and address string. -/
structure SNic where
  family : AddrFamily
  address : List Char
deriving DecidableEq

/-- Subnet prefix of the USB tether interface. -/
def usbPfx : List Char := "10.11.99".data

/-- Inner loop of get_host_ip over the snics of one interface: an inl
result is the early return [address] on the first AF_INET address in the
USB subnet, an inr result is the accumulator extended with every AF_INET
address of the interface. -/
def scan_iface : List SNic → List (List Char) →
    (List (List Char)) ⊕ (List (List Char))
  | [], acc => Sum.inr acc
  | s :: rest, acc =>
    if s.family = AddrFamily.inet then
      if startsWith usbPfx s.address then Sum.inl [s.address]
      else scan_iface rest (acc ++ [s.address])
    else
      scan_iface rest acc

/-- Outer loop of get_host_ip over all interfaces. -/
def get_host_ip_go : List (List Char × List SNic) → List (List Char) →
    List (List Char)
  | [], acc => acc
  | (_, snics) :: rest, acc =>
    match scan_iface snics acc with
    | Sum.inl usb => usb
    | Sum.inr acc' => get_host_ip_go rest acc'

/-- Embedding of get_host_ip(): returns [address] for the first AF_INET
address inside the USB tether subnet, and otherwise the list of all
AF_INET addresses in enumeration order. -/
def get_host_ip (ifaces : List (List Char × List SNic)) : List (List Char) :=
  get_host_ip_go ifaces []

/-- Path taken by do_install to reach the device. -/
inductive Topology
  | localDevice
  | usbNoPrompt (serverHost : List Char)
  | promptedWifi
deriving DecidableEq

/-- Embedding of the topology decision in do_install: when the tool runs
on the device itself no scan happens; otherwise a singleton result of
get_host_ip is treated as the USB interface and connect_to_rm is called
with its default address 10.11.99.1 without prompting, while any other
result length makes do_install prompt for the operator address and the
device address. The is-None guard on the scan result in the source is
unreachable because get_host_ip always returns a list. -/
def determine_topology (onDevice : Bool)
    (ifaces : List (List Char × List SNic)) : Topology :=
  if onDevice then
    Topology.localDevice
  else
    match get_host_ip ifaces with
    | [h] => Topology.usbNoPrompt h
    | _ => Topology.promptedWifi

/-- All AF_INET addresses of the enumerated interfaces, in order. -/
def ifaceInetAddrs : List (List Char × List SNic) → List (List Char)
  | [] => []
  | (_, snics) :: rest =>
    ((snics.filter (fun s => s.family = AddrFamily.inet)).map
      (fun s => s.address)) ++ ifaceInetAddrs rest

/-- Enumerated AF_INET addresses lying in the USB tether subnet. -/
def usbCandidates (ifaces : List (List Char × List SNic)) :
    List (List Char) :=
  (ifaceInetAddrs ifaces).filter (fun a => startsWith usbPfx a)

/-- Counterexample interface list: one interface carrying exactly one
AF_INET address, which is not in the USB tether subnet. -/
def ifacesLanOnly : List (List Char × List SNic) :=
  [("eth0".data, [⟨AddrFamily.inet, "192.168.1.5".data⟩])]

/-! ### Lemmas on the string primitives -/

theorem pySplit_ne_nil (sep : Char) (s : List Char) : pySplit sep s ≠ [] := by
  induction s with
  | nil => simp [pySplit]
  | cons c cs ih =>
    simp only [pySplit]
    split
    · simp
    · split
      · simp
      · simp

theorem mem_pySplit_not_sep (sep : Char) (s : List Char) :
    ∀ l ∈ pySplit sep s, sep ∉ l := by
  induction s with
  | nil =>
    intro l hl
    simp [pySplit] at hl
    simp [hl]
  | cons c cs ih =>
    intro l hl
    simp only [pySplit] at hl
    by_cases hc : c = sep
    · rw [if_pos hc] at hl
      rcases List.mem_cons.mp hl with rfl | hl
      · simp
      · exact ih l hl
    · rw [if_neg hc] at hl
      obtain ⟨hh, tt, hsplit⟩ : ∃ hh tt, pySplit sep cs = hh :: tt := by
        clear hl
        cases hp : pySplit sep cs with
        | nil => exact absurd hp (pySplit_ne_nil sep cs)
        | cons a b => exact ⟨a, b, rfl⟩
      rw [hsplit] at hl
      rcases List.mem_cons.mp hl with rfl | hl
      · intro hmem
        rcases List.mem_cons.mp hmem with heq | hmem
        · exact hc heq.symm
        · exact ih hh (hsplit ▸ List.mem_cons_self hh tt) hmem
      · exact ih l (hsplit ▸ List.mem_cons_of_mem hh hl)

theorem pySplit_no_sep (sep : Char) (x : List Char) (h : sep ∉ x) :
    pySplit sep x = [x] := by
  induction x with
  | nil => rfl
  | cons c cs ih =>
    have hc : ¬ c = sep := fun hcs => h (hcs ▸ List.mem_cons_self c cs)
    have hcs : sep ∉ cs := fun hmem => h (List.mem_cons_of_mem c hmem)
    simp only [pySplit, if_neg hc, ih hcs]

theorem pySplit_append_sep (sep : Char) (x r : List Char) (h : sep ∉ x) :
    pySplit sep (x ++ sep :: r) = x :: pySplit sep r := by
  induction x with
  | nil => simp [pySplit]
  | cons c cs ih =>
    have hc : ¬ c = sep := fun hcs => h (hcs ▸ List.mem_cons_self c cs)
    have hcs : sep ∉ cs := fun hmem => h (List.mem_cons_of_mem c hmem)
    simp only [List.cons_append, pySplit, if_neg hc, List.append_eq, ih hcs]

theorem pySplit_pyJoin (sep : Char) (x : List Char) (xs : List (List Char))
    (h : ∀ l ∈ x :: xs, sep ∉ l) :
    pySplit sep (pyJoin sep (x :: xs)) = x :: xs := by
  induction xs generalizing x with
  | nil => exact pySplit_no_sep sep x (h x (List.mem_cons_self x []))
  | cons y ys ih =>
    have hx : sep ∉ x := h x (List.mem_cons_self x (y :: ys))
    have hrest : ∀ l ∈ y :: ys, sep ∉ l := by
      intro l hl
      exact h l (List.mem_cons_of_mem x hl)
    simp only [pyJoin]
    rw [pySplit_append_sep sep x _ hx, ih y hrest]

theorem pyInsert_ne_nil {α : Type} (i : Nat) (x : α) (xs : List α) :
    pyInsert i x xs ≠ [] := by
  cases xs with
  | nil => simp [pyInsert]
  | cons a as => cases i <;> simp [pyInsert]

theorem mem_pyInsert {α : Type} (i : Nat) (x l : α) (xs : List α)
    (h : l ∈ pyInsert i x xs) : l = x ∨ l ∈ xs := by
  induction xs generalizing i with
  | nil =>
    simp [pyInsert] at h
    exact Or.inl h
  | cons a as ih =>
    cases i with
    | zero =>
      simp only [pyInsert] at h
      rcases List.mem_cons.mp h with rfl | h
      · exact Or.inl rfl
      · exact Or.inr h
    | succ n =>
      simp only [pyInsert] at h
      rcases List.mem_cons.mp h with rfl | h
      · exact Or.inr (List.mem_cons_self l as)
      · rcases ih n h with rfl | h'
        · exact Or.inl rfl
        · exact Or.inr (List.mem_cons_of_mem a h')

theorem pyInsert_length {α : Type} (i : Nat) (x : α) (xs : List α) :
    (pyInsert i x xs).length = xs.length + 1 := by
  induction xs generalizing i with
  | nil => simp [pyInsert]
  | cons a as ih =>
    cases i with
    | zero => simp [pyInsert]
    | succ n => simp [pyInsert, ih n]

theorem pyInsert_zero {α : Type} (x : α) (xs : List α) :
    pyInsert 0 x xs = x :: xs := by
  cases xs <;> rfl

theorem filter_pyInsert {α : Type} (p : α → Bool) (i : Nat) (x : α)
    (xs : List α) :
    ((pyInsert i x xs).filter p).length
    = (xs.filter p).length + (if p x then 1 else 0) := by
  induction xs generalizing i with
  | nil =>
    simp only [pyInsert, List.filter]
    cases hp : p x <;> simp [hp]
  | cons a as ih =>
    cases i with
    | zero =>
      rw [pyInsert_zero]
      cases hp : p x <;> cases hq : p a <;>
        simp +arith [List.filter_cons, hp, hq]
    | succ n =>
      simp only [pyInsert]
      cases hq : p a <;> simp +arith [List.filter_cons, hq, ih n]

/-! ### Lemmas on line prefixes and the commenting pass -/

theorem serverPfx_cons : serverPfx = 'S' :: "ERVER=".data := rfl

theorem hashServerPfx_cons : hashServerPfx = '#' :: serverPfx := rfl

theorem startsWith_append_self (p l : List Char) :
    startsWith p (p ++ l) = true := by
  induction p with
  | nil => rfl
  | cons c cs ih => simp [startsWith, ih]

theorem startsWith_serverPfx_hash (l : List Char) :
    startsWith serverPfx ('#' :: l) = false := by
  rw [serverPfx_cons, startsWith, if_neg (by decide : ¬ 'S' = '#')]

theorem startsWith_hashServerPfx_cons (l : List Char) :
    startsWith hashServerPfx ('#' :: l) = startsWith serverPfx l := by
  rw [hashServerPfx_cons, startsWith, if_pos rfl]

theorem startsWith_server_not_hash (l : List Char)
    (h : startsWith serverPfx l = true) :
    startsWith hashServerPfx l = false := by
  cases l with
  | nil => simp [serverPfx_cons, startsWith] at h
  | cons c cs =>
    rw [serverPfx_cons, startsWith] at h
    by_cases hc : 'S' = c
    · rw [hashServerPfx_cons, startsWith, if_neg]
      rw [← hc]
      decide
    · rw [if_neg hc] at h
      exact absurd h (by decide)

theorem startsWith_server_insert (host : List Char) :
    startsWith serverPfx (serverPfx ++ host) = true :=
  startsWith_append_self serverPfx host

theorem startsWith_hash_insert (host : List Char) :
    startsWith hashServerPfx (serverPfx ++ host) = false :=
  startsWith_server_not_hash (serverPfx ++ host) (startsWith_server_insert host)

theorem comment_not_active (a : List Char) :
    startsWith serverPfx (commentServerLine a) = false := by
  unfold commentServerLine
  by_cases ha : startsWith serverPfx a = true
  · rw [if_pos ha]
    exact startsWith_serverPfx_hash a
  · rw [if_neg ha]
    exact Bool.not_eq_true _ |>.mp ha

theorem comment_no_newline (a : List Char) (h : ('\n' : Char) ∉ a) :
    ('\n' : Char) ∉ commentServerLine a := by
  unfold commentServerLine
  split
  · intro hmem
    rcases List.mem_cons.mp hmem with heq | hmem
    · exact absurd heq (by decide)
    · exact h hmem
  · exact h

theorem active_count_map_comment (xs : List (List Char)) :
    ((xs.map commentServerLine).filter
      (fun l => startsWith serverPfx l)).length = 0 := by
  induction xs with
  | nil => rfl
  | cons a as ih => simp [List.filter_cons, comment_not_active, ih]

theorem hash_count_map_comment (xs : List (List Char)) :
    ((xs.map commentServerLine).filter
      (fun l => startsWith hashServerPfx l)).length
    = (xs.filter (fun l => startsWith hashServerPfx l)).length
      + (xs.filter (fun l => startsWith serverPfx l)).length := by
  induction xs with
  | nil => rfl
  | cons a as ih =>
    by_cases ha : startsWith serverPfx a = true
    · have h1 : commentServerLine a = '#' :: a := by
        unfold commentServerLine
        rw [if_pos ha]
      have h2 : startsWith hashServerPfx ('#' :: a) = true := by
        rw [startsWith_hashServerPfx_cons]
        exact ha
      have h3 : startsWith hashServerPfx a = false :=
        startsWith_server_not_hash a ha
      simp [List.filter_cons, h1, h2, h3, ha, ih]
      omega
    · have ha' : startsWith serverPfx a = false := Bool.not_eq_true _ |>.mp ha
      have h1 : commentServerLine a = a := by
        unfold commentServerLine
        rw [if_neg ha]
      by_cases hb : startsWith hashServerPfx a = true
      · simp [List.filter_cons, h1, hb, ha', ih]
        omega
      · have hb' : startsWith hashServerPfx a = false :=
          Bool.not_eq_true _ |>.mp hb
        simp [List.filter_cons, h1, hb', ha', ih]

/-! ### Lemmas on the set_server_config loop -/

theorem set_server_loop_snd (i insPos : Nat) (xs : List (List Char)) :
    (set_server_loop i insPos xs).2 = xs.map commentServerLine := by
  induction xs generalizing i insPos with
  | nil => rfl
  | cons a rest ih => simp [set_server_loop, ih]

theorem set_server_loop_fst_no_general (i insPos : Nat)
    (xs : List (List Char))
    (h : ∀ a ∈ xs, startsWith generalHdr a = false) :
    (set_server_loop i insPos xs).1 = insPos := by
  induction xs generalizing i insPos with
  | nil => rfl
  | cons a rest ih =>
    have ha : startsWith generalHdr a = false :=
      h a (List.mem_cons_self a rest)
    have hrest : ∀ b ∈ rest, startsWith generalHdr b = false := by
      intro b hb
      exact h b (List.mem_cons_of_mem a hb)
    simp [set_server_loop, ha, ih _ _ hrest]

/-! ### Line decomposition of a patched document -/

/-- Number of active SERVER= lines of a config document. -/
def activeServerCount (doc : List Char) : Nat :=
  ((pySplit '\n' doc).filter (fun l => startsWith serverPfx l)).length

/-- Number of deactivated #SERVER= lines of a config document. -/
def inactiveServerCount (doc : List Char) : Nat :=
  ((pySplit '\n' doc).filter (fun l => startsWith hashServerPfx l)).length

/-- Number of lines of a config document. -/
def numLines (doc : List Char) : Nat := (pySplit '\n' doc).length

theorem set_server_config_lines (doc host : List Char)
    (h : ('\n' : Char) ∉ host) :
    pySplit '\n' (set_server_config doc host)
    = pyInsert (set_server_loop 0 0 (pySplit '\n' doc)).1
        (serverPfx ++ host)
        ((pySplit '\n' doc).map commentServerLine) := by
  simp only [set_server_config]
  rw [set_server_loop_snd]
  obtain ⟨y, ys, hyys⟩ : ∃ y ys,
      pyInsert (set_server_loop 0 0 (pySplit '\n' doc)).1
        (serverPfx ++ host)
        ((pySplit '\n' doc).map commentServerLine) = y :: ys := by
    cases hp : pyInsert (set_server_loop 0 0 (pySplit '\n' doc)).1
        (serverPfx ++ host)
        ((pySplit '\n' doc).map commentServerLine) with
    | nil => exact absurd hp (pyInsert_ne_nil _ _ _)
    | cons a b => exact ⟨a, b, rfl⟩
  rw [hyys]
  apply pySplit_pyJoin
  rw [← hyys]
  intro l hl
  rcases mem_pyInsert _ _ _ _ hl with rfl | hmem
  · intro hin
    rcases List.mem_append.mp hin with hin | hin
    · exact absurd hin (by decide)
    · exact h hin
  · obtain ⟨m, hm, rfl⟩ := List.mem_map.mp hmem
    exact comment_no_newline m (mem_pySplit_not_sep '\n' doc m hm)

theorem patch_counts (doc host : List Char) (h : ('\n' : Char) ∉ host) :
    activeServerCount (set_server_config doc host) = 1
    ∧ inactiveServerCount (set_server_config doc host)
        = inactiveServerCount doc + activeServerCount doc
    ∧ numLines (set_server_config doc host) = numLines doc + 1 := by
  unfold activeServerCount inactiveServerCount numLines
  rw [set_server_config_lines doc host h]
  refine ⟨?_, ?_, ?_⟩
  · rw [filter_pyInsert, active_count_map_comment, startsWith_server_insert]
    rfl
  · rw [filter_pyInsert, hash_count_map_comment, startsWith_hash_insert]
    simp
  · rw [pyInsert_length, List.length_map]

/-! ### Characterization of the interface scan -/

/-- First AF_INET address in the USB subnet among the snics of one
interface, if any. -/
def snicsUsb? : List SNic → Option (List Char)
  | [] => none
  | s :: rest =>
    if s.family = AddrFamily.inet then
      if startsWith usbPfx s.address then some s.address
      else snicsUsb? rest
    else snicsUsb? rest

/-- First AF_INET address in the USB subnet over all interfaces, if
any. -/
def ifacesUsb? : List (List Char × List SNic) → Option (List Char)
  | [] => none
  | (_, snics) :: rest =>
    match snicsUsb? snics with
    | some a => some a
    | none => ifacesUsb? rest

theorem scan_iface_eq (snics : List SNic) (acc : List (List Char)) :
    scan_iface snics acc
    = match snicsUsb? snics with
      | some a => Sum.inl [a]
      | none =>
        Sum.inr (acc ++ ((snics.filter
          (fun s => s.family = AddrFamily.inet)).map (fun s => s.address))) := by
  induction snics generalizing acc with
  | nil => simp [scan_iface, snicsUsb?]
  | cons s rest ih =>
    by_cases hf : s.family = AddrFamily.inet
    · by_cases hu : startsWith usbPfx s.address = true
      · simp [scan_iface, snicsUsb?, hf, hu]
      · have hu' : startsWith usbPfx s.address = false :=
          Bool.not_eq_true _ |>.mp hu
        have hL : scan_iface (s :: rest) acc
            = scan_iface rest (acc ++ [s.address]) := by
          simp [scan_iface, hf, hu']
        have hS : snicsUsb? (s :: rest) = snicsUsb? rest := by
          simp [snicsUsb?, hf, hu']
        have hF : (s :: rest).filter (fun s => s.family = AddrFamily.inet)
            = s :: rest.filter (fun s => s.family = AddrFamily.inet) := by
          simp [List.filter_cons, hf]
        rw [hL, ih, hS, hF]
        cases hrest : snicsUsb? rest with
        | some a => rfl
        | none => simp [List.append_assoc]
    · have hL : scan_iface (s :: rest) acc = scan_iface rest acc := by
        simp [scan_iface, hf]
      have hS : snicsUsb? (s :: rest) = snicsUsb? rest := by
        simp [snicsUsb?, hf]
      have hF : (s :: rest).filter (fun s => s.family = AddrFamily.inet)
          = rest.filter (fun s => s.family = AddrFamily.inet) := by
        simp [List.filter_cons, hf]
      rw [hL, ih, hS, hF]

theorem get_host_ip_go_eq (ifaces : List (List Char × List SNic))
    (acc : List (List Char)) :
    get_host_ip_go ifaces acc
    = match ifacesUsb? ifaces with
      | some a => [a]
      | none => acc ++ ifaceInetAddrs ifaces := by
  induction ifaces generalizing acc with
  | nil => simp [get_host_ip_go, ifacesUsb?, ifaceInetAddrs]
  | cons p rest ih =>
    obtain ⟨name, snics⟩ := p
    cases hs : snicsUsb? snics with
    | some a =>
      have h1 : get_host_ip_go ((name, snics) :: rest) acc = [a] := by
        simp [get_host_ip_go, scan_iface_eq, hs]
      have h2 : ifacesUsb? ((name, snics) :: rest) = some a := by
        simp [ifacesUsb?, hs]
      rw [h1, h2]
    | none =>
      have h1 : get_host_ip_go ((name, snics) :: rest) acc
          = get_host_ip_go rest (acc ++ (snics.filter
              (fun s => s.family = AddrFamily.inet)).map (fun s => s.address)) := by
        simp [get_host_ip_go, scan_iface_eq, hs]
      have h2 : ifacesUsb? ((name, snics) :: rest) = ifacesUsb? rest := by
        simp [ifacesUsb?, hs]
      rw [h1, ih, h2]
      cases hr : ifacesUsb? rest with
      | some b => rfl
      | none => simp [ifaceInetAddrs, List.append_assoc]

theorem get_host_ip_eq (ifaces : List (List Char × List SNic)) :
    get_host_ip ifaces
    = match ifacesUsb? ifaces with
      | some a => [a]
      | none => ifaceInetAddrs ifaces := by
  rw [get_host_ip, get_host_ip_go_eq]
  cases ifacesUsb? ifaces <;> simp

theorem snicsUsb?_mem (snics : List SNic) (a : List Char)
    (h : snicsUsb? snics = some a) :
    startsWith usbPfx a = true
    ∧ a ∈ (snics.filter (fun s => s.family = AddrFamily.inet)).map
        (fun s => s.address) := by
  induction snics with
  | nil => simp [snicsUsb?] at h
  | cons s rest ih =>
    by_cases hf : s.family = AddrFamily.inet
    · by_cases hu : startsWith usbPfx s.address = true
      · have ha : s.address = a := by simpa [snicsUsb?, hf, hu] using h
        subst ha
        refine ⟨hu, ?_⟩
        have hfl : (s :: rest).filter (fun s => s.family = AddrFamily.inet)
            = s :: rest.filter (fun s => s.family = AddrFamily.inet) := by
          simp [List.filter_cons, hf]
        rw [hfl, List.map_cons]
        exact List.mem_cons_self _ _
      · have hu' : startsWith usbPfx s.address = false :=
          Bool.not_eq_true _ |>.mp hu
        have h' : snicsUsb? rest = some a := by
          simpa [snicsUsb?, hf, hu'] using h
        obtain ⟨h1, h2⟩ := ih h'
        refine ⟨h1, ?_⟩
        have hfl : (s :: rest).filter (fun s => s.family = AddrFamily.inet)
            = s :: rest.filter (fun s => s.family = AddrFamily.inet) := by
          simp [List.filter_cons, hf]
        rw [hfl, List.map_cons]
        exact List.mem_cons_of_mem _ h2
    · have h' : snicsUsb? rest = some a := by simpa [snicsUsb?, hf] using h
      obtain ⟨h1, h2⟩ := ih h'
      refine ⟨h1, ?_⟩
      have hfl : (s :: rest).filter (fun s => s.family = AddrFamily.inet)
          = rest.filter (fun s => s.family = AddrFamily.inet) := by
        simp [List.filter_cons, hf]
      rw [hfl]
      exact h2

theorem snicsUsb?_none (snics : List SNic)
    (h : snicsUsb? snics = none) :
    ∀ a ∈ (snics.filter (fun s => s.family = AddrFamily.inet)).map
        (fun s => s.address), startsWith usbPfx a = false := by
  induction snics with
  | nil => simp
  | cons s rest ih =>
    by_cases hf : s.family = AddrFamily.inet
    · by_cases hu : startsWith usbPfx s.address = true
      · simp [snicsUsb?, hf, hu] at h
      · have hu' : startsWith usbPfx s.address = false :=
          Bool.not_eq_true _ |>.mp hu
        have h' : snicsUsb? rest = none := by
          simpa [snicsUsb?, hf, hu'] using h
        have hfl : (s :: rest).filter (fun s => s.family = AddrFamily.inet)
            = s :: rest.filter (fun s => s.family = AddrFamily.inet) := by
          simp [List.filter_cons, hf]
        intro a ha
        rw [hfl, List.map_cons] at ha
        rcases List.mem_cons.mp ha with rfl | ha
        · exact hu'
        · exact ih h' a ha
    · have h' : snicsUsb? rest = none := by simpa [snicsUsb?, hf] using h
      have hfl : (s :: rest).filter (fun s => s.family = AddrFamily.inet)
          = rest.filter (fun s => s.family = AddrFamily.inet) := by
        simp [List.filter_cons, hf]
      intro a ha
      rw [hfl] at ha
      exact ih h' a ha

theorem ifacesUsb?_mem (ifaces : List (List Char × List SNic))
    (a : List Char) (h : ifacesUsb? ifaces = some a) :
    startsWith usbPfx a = true ∧ a ∈ ifaceInetAddrs ifaces := by
  induction ifaces with
  | nil => simp [ifacesUsb?] at h
  | cons p rest ih =>
    obtain ⟨name, snics⟩ := p
    cases hs : snicsUsb? snics with
    | some b =>
      have hb : b = a := by simpa [ifacesUsb?, hs] using h
      subst hb
      obtain ⟨h1, h2⟩ := snicsUsb?_mem snics b hs
      refine ⟨h1, ?_⟩
      have hI : ifaceInetAddrs ((name, snics) :: rest)
          = (snics.filter (fun s => s.family = AddrFamily.inet)).map
              (fun s => s.address) ++ ifaceInetAddrs rest := rfl
      rw [hI]
      exact List.mem_append.mpr (Or.inl h2)
    | none =>
      have h' : ifacesUsb? rest = some a := by simpa [ifacesUsb?, hs] using h
      obtain ⟨h1, h2⟩ := ih h'
      refine ⟨h1, ?_⟩
      have hI : ifaceInetAddrs ((name, snics) :: rest)
          = (snics.filter (fun s => s.family = AddrFamily.inet)).map
              (fun s => s.address) ++ ifaceInetAddrs rest := rfl
      rw [hI]
      exact List.mem_append.mpr (Or.inr h2)

theorem ifacesUsb?_none (ifaces : List (List Char × List SNic))
    (h : ifacesUsb? ifaces = none) :
    ∀ a ∈ ifaceInetAddrs ifaces, startsWith usbPfx a = false := by
  induction ifaces with
  | nil => simp [ifaceInetAddrs]
  | cons p rest ih =>
    obtain ⟨name, snics⟩ := p
    cases hs : snicsUsb? snics with
    | some b => simp [ifacesUsb?, hs] at h
    | none =>
      have h' : ifacesUsb? rest = none := by simpa [ifacesUsb?, hs] using h
      intro a ha
      have hI : ifaceInetAddrs ((name, snics) :: rest)
          = (snics.filter (fun s => s.family = AddrFamily.inet)).map
              (fun s => s.address) ++ ifaceInetAddrs rest := rfl
      rw [hI] at ha
      rcases List.mem_append.mp ha with ha | ha
      · exact snicsUsb?_none snics hs a ha
      · exact ih h' a ha

theorem usb_singleton_iff (ifaces : List (List Char × List SNic)) :
    (get_host_ip ifaces).length = 1
    ↔ (usbCandidates ifaces ≠ [] ∨ (ifaceInetAddrs ifaces).length = 1) := by
  rw [get_host_ip_eq]
  cases hu : ifacesUsb? ifaces with
  | some a =>
    constructor
    · intro _
      left
      obtain ⟨h1, h2⟩ := ifacesUsb?_mem ifaces a hu
      intro hnil
      have hmem : a ∈ usbCandidates ifaces := by
        unfold usbCandidates
        rw [List.mem_filter]
        exact ⟨h2, h1⟩
      rw [hnil] at hmem
      simp at hmem
    · intro _
      rfl
  | none =>
    have hnone : usbCandidates ifaces = [] := by
      unfold usbCandidates
      rw [List.filter_eq_nil_iff]
      intro a ha
      simp [ifacesUsb?_none ifaces hu a ha]
    simp [hnone]

/-! ### Evaluation lemmas for the restore script -/

theorem restore_script_eq (env : List Char → List Char) :
    restore_script env
    = fw_setenv
        (fw_setenv
          (fw_setenv (fw_setenv env upgradeKey "1".data) bootcountKey "0".data)
          fallbackKey
          ((fw_setenv (fw_setenv env upgradeKey "1".data) bootcountKey
              "0".data) activeKey))
        activeKey
        (if (fw_setenv (fw_setenv env upgradeKey "1".data) bootcountKey
              "0".data) activeKey = "2".data then "3".data
         else "2".data) := rfl

theorem restore_env2_active (env : List Char → List Char) :
    fw_setenv (fw_setenv env upgradeKey "1".data) bootcountKey "0".data
      activeKey = env activeKey := by
  rw [fw_setenv_other _ _ _ _ (by decide : activeKey ≠ bootcountKey),
      fw_setenv_other _ _ _ _ (by decide : activeKey ≠ upgradeKey)]

theorem restore_script_active (env : List Char → List Char) :
    restore_script env activeKey
    = (if env activeKey = "2".data then "3".data else "2".data) := by
  have h := congrFun (restore_script_eq env) activeKey
  rw [h, fw_setenv_same, restore_env2_active]

theorem restore_script_fallback (env : List Char → List Char) :
    restore_script env fallbackKey = env activeKey := by
  have h := congrFun (restore_script_eq env) fallbackKey
  rw [h, fw_setenv_other _ _ _ _ (by decide : fallbackKey ≠ activeKey),
      fw_setenv_same, restore_env2_active]

theorem keyIdx_restore_writes (env : List Char → List Char) :
    keyIdx fallbackKey (restore_writes env) = 2
    ∧ keyIdx activeKey (restore_writes env) = 3 := by
  constructor
  · simp only [restore_writes, keyIdx]
    rw [if_neg (by decide : ¬ upgradeKey = fallbackKey),
        if_neg (by decide : ¬ bootcountKey = fallbackKey)]
    simp
  · simp only [restore_writes, keyIdx]
    rw [if_neg (by decide : ¬ upgradeKey = activeKey),
        if_neg (by decide : ¬ bootcountKey = activeKey),
        if_neg (by decide : ¬ fallbackKey = activeKey)]
    simp

/-- Substring test used to check which failure messages carry example
tokens. -/
def containsSeq (needle : List Char) : List Char → Bool
  | [] => startsWith needle []
  | c :: cs => startsWith needle (c :: cs) || containsSeq needle cs

theorem usb_no_prompt_iff (ifaces : List (List Char × List SNic)) :
    (∃ h, determine_topology false ifaces = Topology.usbNoPrompt h)
    ↔ (get_host_ip ifaces).length = 1 := by
  unfold determine_topology
  simp only [Bool.false_eq_true, if_false]
  cases hg : get_host_ip ifaces with
  | nil => simp
  | cons a t =>
    cases t with
    | nil => simp
    | cons b t2 => simp

/-! ### Claims -/

/-- C1: the restore partition swap maps active=2 to active=3 with
fallback=2, maps active=3 to active=2 with fallback=3, and in the write
trace of the script the fallback_partition write strictly precedes the
active_partition write. -/
theorem restore_swap_spec (env : List Char → List Char) :
    (env activeKey = "2".data →
      restore_script env activeKey = "3".data
      ∧ restore_script env fallbackKey = "2".data)
    ∧ (env activeKey = "3".data →
      restore_script env activeKey = "2".data
      ∧ restore_script env fallbackKey = "3".data)
    ∧ keyIdx fallbackKey (restore_writes env)
        < keyIdx activeKey (restore_writes env) := by
  refine ⟨?_, ?_, ?_⟩
  · intro h
    rw [restore_script_active, restore_script_fallback, h]
    exact ⟨if_pos rfl, rfl⟩
  · intro h
    rw [restore_script_active, restore_script_fallback, h]
    exact ⟨if_neg (by decide), rfl⟩
  · rw [(keyIdx_restore_writes env).1, (keyIdx_restore_writes env).2]
    decide

/-- Witness for C1 at the concrete boot environments whose active
partition is 2 and 3. -/
theorem restore_swap_spec_witness :
    (restore_script (fun _ => "2".data) activeKey = "3".data
      ∧ restore_script (fun _ => "2".data) fallbackKey = "2".data)
    ∧ (restore_script (fun _ => "3".data) activeKey = "2".data
      ∧ restore_script (fun _ => "3".data) fallbackKey = "3".data)
    ∧ keyIdx fallbackKey (restore_writes (fun _ => "2".data))
        < keyIdx activeKey (restore_writes (fun _ => "2".data)) :=
  ⟨(restore_swap_spec (fun _ => "2".data)).1 rfl,
   (restore_swap_spec (fun _ => "3".data)).2.1 rfl,
   (restore_swap_spec (fun _ => "2".data)).2.2⟩

/-- C2: patching the document [General]-newline-SERVER=old-newline with
endpoint host 1.2.3.4 and port 8080 returns, by literal string equality,
the document whose lines are [General], then SERVER=http://1.2.3.4:8080,
then #SERVER=old, then the empty final line. -/
theorem set_server_config_general_example :
    set_server_config "[General]\nSERVER=old\n".data
      (serverHostName "1.2.3.4".data 8080)
    = "[General]\nSERVER=http://1.2.3.4:8080\n#SERVER=old\n".data := by
  decide

/-- C3: one application of the config patch leaves exactly one active
SERVER= line, turns every previously active SERVER= line into a #SERVER=
line while deleting no line, and a second application still leaves
exactly one active SERVER= line, not two. -/
theorem set_server_config_single_active (doc host host2 : List Char)
    (h : ('\n' : Char) ∉ host) (h2 : ('\n' : Char) ∉ host2) :
    activeServerCount (set_server_config doc host) = 1
    ∧ inactiveServerCount (set_server_config doc host)
        = inactiveServerCount doc + activeServerCount doc
    ∧ numLines (set_server_config doc host) = numLines doc + 1
    ∧ activeServerCount
        (set_server_config (set_server_config doc host) host2) = 1 := by
  obtain ⟨a1, a2, a3⟩ := patch_counts doc host h
  exact ⟨a1, a2, a3, (patch_counts _ host2 h2).1⟩

/-- Witness for C3 on a concrete document and two concrete endpoints. -/
theorem set_server_config_single_active_witness :
    activeServerCount (set_server_config "[General]\nSERVER=old\n".data
      "http://1.2.3.4:8080".data) = 1
    ∧ inactiveServerCount (set_server_config "[General]\nSERVER=old\n".data
        "http://1.2.3.4:8080".data)
      = inactiveServerCount "[General]\nSERVER=old\n".data
        + activeServerCount "[General]\nSERVER=old\n".data
    ∧ numLines (set_server_config "[General]\nSERVER=old\n".data
        "http://1.2.3.4:8080".data)
      = numLines "[General]\nSERVER=old\n".data + 1
    ∧ activeServerCount (set_server_config
        (set_server_config "[General]\nSERVER=old\n".data
          "http://1.2.3.4:8080".data) "http://10.0.0.7:8080".data) = 1 :=
  set_server_config_single_active _ _ _ (by decide) (by decide)

/-- C4 counterexample: with a concrete catalog, an unknown literal token
on the unknown device 5 raises SystemError whose fixed message carries no
example tokens, while the same token on device 2 raises SystemExit whose
message does; the two failure kinds differ, refuting the claim that
every resolution failure surfaces one single error kind whose message
lists example tokens. -/
theorem version_lookup_error_kinds_cex :
    version_lookup umSample "9.9.9".data 5
      = Except.error (PyError.systemError invalidDeviceMsg)
    ∧ version_lookup umSample "9.9.9".data 2
      = Except.error (PyError.systemExit invalidVersionMsg)
    ∧ isSystemExit (PyError.systemError invalidDeviceMsg) = false
    ∧ isSystemExit (PyError.systemExit invalidVersionMsg) = true
    ∧ containsSeq "latest".data invalidDeviceMsg = false
    ∧ containsSeq "latest".data invalidVersionMsg = true :=
  ⟨rfl, rfl, rfl, rfl, by decide, by decide⟩

/-- C4 amended: for a literal token (neither latest nor toltec), a device
outside the two known generations fails with SystemError and a fixed
message carrying no example tokens, while a token absent from the
catalog of device 2 or device 1 fails with SystemExit whose message does
list example valid tokens; the two failure kinds are distinct. -/
theorem version_lookup_error_kinds (um : UpdateManager) (v : List Char)
    (hl : v ≠ "latest".data) (ht : v ≠ "toltec".data) :
    (∀ d : Int, d ≠ 2 → d ≠ 1 →
      version_lookup um v d
        = Except.error (PyError.systemError invalidDeviceMsg))
    ∧ (v ∉ um.id_lookups_rm2 →
      version_lookup um v 2
        = Except.error (PyError.systemExit invalidVersionMsg))
    ∧ (v ∉ um.id_lookups_rm1 →
      version_lookup um v 1
        = Except.error (PyError.systemExit invalidVersionMsg))
    ∧ containsSeq "latest".data invalidVersionMsg = true
    ∧ containsSeq "latest".data invalidDeviceMsg = false := by
  refine ⟨?_, ?_, ?_, by decide, by decide⟩
  · intro d h2 h1
    simp [version_lookup, hl, ht, h2, h1]
  · intro hm
    simp [version_lookup, hl, ht, hm]
  · intro hm
    simp [version_lookup, hl, ht, hm]

/-- Witness for C4 amended at a concrete catalog, token and devices. -/
theorem version_lookup_error_kinds_witness :
    version_lookup umSample "8.8.8".data 7
      = Except.error (PyError.systemError invalidDeviceMsg)
    ∧ version_lookup umSample "8.8.8".data 2
      = Except.error (PyError.systemExit invalidVersionMsg)
    ∧ version_lookup umSample "8.8.8".data 1
      = Except.error (PyError.systemExit invalidVersionMsg) := by
  have h := version_lookup_error_kinds umSample "8.8.8".data
    (by decide) (by decide)
  exact ⟨h.1 7 (by decide) (by decide), h.2.1 (by decide), h.2.2.1 (by decide)⟩

/-- C5 (code bug): with the operator confirming and the partition-swap
script exiting with status 1, the on-device restore path fails through
check=True with CalledProcessError, but the remote restore path discards
the received exit status and terminates successfully, so a non-zero exit
of the swap script is not fatal on the remote path, contrary to the
specified VerifyExit behavior. -/
theorem do_restore_remote_ignores_exit :
    do_restore false "y".data 1 = RestoreResult.success
    ∧ do_restore true "y".data 1 = RestoreResult.calledProcessError 1 := by
  decide

/-- C6 counterexample: patching a document with no [General] line inserts
the new SERVER= line at position 0, producing the line order
SERVER=http://1.2.3.4:8080, A=1, B=2 rather than the claimed append at
the end of the document. -/
theorem set_server_config_no_general_cex :
    set_server_config "A=1\nB=2".data "http://1.2.3.4:8080".data
      = "SERVER=http://1.2.3.4:8080\nA=1\nB=2".data
    ∧ set_server_config "A=1\nB=2".data "http://1.2.3.4:8080".data
      ≠ "A=1\nB=2\nSERVER=http://1.2.3.4:8080".data := by
  decide

/-- C6 amended: patching a document none of whose lines starts with
[General] never fails, and the resulting lines are the new SERVER= line
placed at the start of the document followed by every original line in
order, previously active SERVER= lines deactivated and every other line
untouched. -/
theorem set_server_config_no_general (doc host : List Char)
    (h : ('\n' : Char) ∉ host)
    (hg : ∀ l ∈ pySplit '\n' doc, startsWith generalHdr l = false) :
    pySplit '\n' (set_server_config doc host)
    = (serverPfx ++ host) :: (pySplit '\n' doc).map commentServerLine := by
  rw [set_server_config_lines doc host h,
      set_server_loop_fst_no_general 0 0 _ hg, pyInsert_zero]

/-- Witness for C6 amended on a concrete document without [General]. -/
theorem set_server_config_no_general_witness :
    pySplit '\n' (set_server_config "A=1\nB=2".data "http://h:1".data)
    = (serverPfx ++ "http://h:1".data)
      :: (pySplit '\n' "A=1\nB=2".data).map commentServerLine :=
  set_server_config_no_general _ _ (by decide) (by decide)

/-- C7 (code bug): started from the active partition value 4, which lies
outside the set containing 2 and 3, the swap script does not reject the
operation: it still writes fallback_partition=4 and active_partition=2,
silently mis-toggling instead of validating. -/
theorem restore_script_mistoggle :
    restore_script (fun _ => "4".data) activeKey = "2".data
    ∧ restore_script (fun _ => "4".data) fallbackKey = "4".data := by
  decide

/-- C8 counterexample: on a host with a single enumerated AF_INET address
lying outside the USB tether subnet, do_install takes the no-prompt USB
path even though zero addresses lie in the USB subnet, refuting the
claimed equivalence with exactly one USB-subnet candidate. -/
theorem usb_path_iff_cex :
    determine_topology false ifacesLanOnly
    = Topology.usbNoPrompt "192.168.1.5".data
    ∧ (usbCandidates ifacesLanOnly).length = 0 := by
  decide

/-- C8 amended: the no-prompt USB path is taken exactly when the
interface scan returns a singleton, which holds iff some enumerated
AF_INET address lies in the USB tether subnet (the first such address is
then used) or exactly one AF_INET address is enumerated in total, even
one outside the subnet; in every other case the operator is prompted for
the operator address and the device address. -/
theorem usb_path_iff (ifaces : List (List Char × List SNic)) :
    (∃ h, determine_topology false ifaces = Topology.usbNoPrompt h)
    ↔ (usbCandidates ifaces ≠ [] ∨ (ifaceInetAddrs ifaces).length = 1) := by
  rw [usb_no_prompt_iff, usb_singleton_iff]

/-- C9: whenever the device-side update trigger exits non-zero, both the
remote install path (after a successful reachability probe) and the
local install path end in a fatal SystemExit rather than success, the
captured stderr is printed verbatim to the operator, and the update
server thread carries the daemon flag, so it cannot outlive the process
the SystemExit terminates. -/
theorem install_update_failure_reported (e : Int) (s : List Char)
    (he : e ≠ 0) :
    (install_remote_finish 0 e s).outcome = InstallOutcome.fatal updateErrorMsg
    ∧ (install_remote_finish 0 e s).printedStderr = some s
    ∧ (install_remote_finish 0 e s).serverDaemon = true
    ∧ (install_local_finish e s).outcome = InstallOutcome.fatal updateErrorMsg
    ∧ (install_local_finish e s).printedStderr = some s
    ∧ (install_local_finish e s).serverDaemon = true := by
  simp [install_remote_finish, install_local_finish, he]

/-- Witness for C9 at exit status 1 with the stderr text payload hash
mismatch. -/
theorem install_update_failure_reported_witness :
    (install_remote_finish 0 1 "payload hash mismatch".data).outcome
      = InstallOutcome.fatal updateErrorMsg
    ∧ (install_remote_finish 0 1 "payload hash mismatch".data).printedStderr
      = some "payload hash mismatch".data
    ∧ (install_remote_finish 0 1 "payload hash mismatch".data).serverDaemon
      = true
    ∧ (install_local_finish 1 "payload hash mismatch".data).outcome
      = InstallOutcome.fatal updateErrorMsg
    ∧ (install_local_finish 1 "payload hash mismatch".data).printedStderr
      = some "payload hash mismatch".data
    ∧ (install_local_finish 1 "payload hash mismatch".data).serverDaemon
      = true :=
  install_update_failure_reported 1 "payload hash mismatch".data (by decide)

/-- C10: the tokens latest and toltec are resolved before any device
check: for every catalog and every device value, even outside the two
known generations, version_lookup returns the catalog's designated value
and never reaches the invalid-device SystemError. -/
theorem version_lookup_latest_toltec (um : UpdateManager) (device : Int) :
    version_lookup um "latest".data device
      = Except.ok (um.latest_versions device)
    ∧ version_lookup um "toltec".data device
      = Except.ok um.latest_toltec_version :=
  ⟨rfl, rfl⟩

end Codexctl
